import Mathlib

/-!
Verification of the session registry and output-buffering engine of
`bg-server-mcp-shell` (file `mcp-shell-server.js`).

The server keeps a `Map` from session id to a mutable session record; a PTY
child appends output events asynchronously (`p.onData`, `p.onExit`) and the
MCP tools (`startProcess`, `writeInput`, `getSessionOutput`, `stopProcess`,
`cleanupSessions`) read and mutate the map.  We embed the records, the map,
and every state-changing code path as pure Lean functions, and model an
execution as a list of operations folded over the state.

JS numbers that hold exit codes/signals are embedded as `Int`; array indices
(`fromIndex`) as `Int` because callers may pass negative numbers, which
`Array.prototype.slice` interprets from the end; timestamps are opaque
strings (`new Date().toISOString()` values).
-/

namespace McpShell

/-- One entry of a session's `outputBuffer`: either a stdout chunk pushed by
`p.onData` (line 74) or the exit marker pushed by `p.onExit` (lines 87-92). -/
inductive OutputEvent where
  | stdout (data : String) (timestamp : String)
  | exitMarker (exitCode : Int) (signal : Int) (timestamp : String)
  deriving DecidableEq, Repr

/-- `const maxBufferSize = 10000` (line 55). -/
def maxBufferSize : Nat := 10000

/-- The buffer update performed by the `p.onData` callback (lines 72-79):
`outputBuffer.push(ev)` followed by `outputBuffer.shift()` when the length
exceeds `maxBufferSize`. -/
def onDataPush (buf : List OutputEvent) (ev : OutputEvent) : List OutputEvent :=
  let b := buf ++ [ev]
  if b.length > maxBufferSize then b.drop 1 else b

/-- The buffer update performed by the `p.onExit` callback (lines 87-92):
`session.output.push(exitMarker)` with no trimming. -/
def onExitPush (buf : List OutputEvent) (ev : OutputEvent) : List OutputEvent :=
  buf ++ [ev]

/-- The session record stored by `sessions.set(sessionId, {...})` (lines
57-70).  The `pty` handle itself is external; its observable effects enter
the model through the operations below. -/
structure Session where
  pid : Nat
  cwd : String
  cmd : String
  args : List String
  cols : Nat
  rows : Nat
  startedAt : String
  output : List OutputEvent
  exitCode : Option Int
  exitSignal : Option Int
  isRunning : Bool
  deriving DecidableEq, Repr

/-- The fresh record registered by `startProcess` (lines 57-70): running,
no exit fields, empty buffer. -/
def newSession (pid : Nat) (cwd cmd : String) (args : List String)
    (cols rows : Nat) (startedAt : String) : Session :=
  { pid := pid, cwd := cwd, cmd := cmd, args := args, cols := cols,
    rows := rows, startedAt := startedAt, output := [],
    exitCode := none, exitSignal := none, isRunning := true }

/-- The `sessions` map (line 9), embedded as an association list in
insertion order. -/
structure ServerState where
  sessions : List (String × Session)
  deriving DecidableEq, Repr

def emptyState : ServerState := { sessions := [] }

/-- `sessions.get(id)`. -/
def findSession : List (String × Session) → String → Option Session
  | [], _ => none
  | kv :: m, id => if kv.fst = id then some kv.snd else findSession m id

/-- `sessions.has(id)` (derived). -/
def containsSession (m : List (String × Session)) (id : String) : Bool :=
  (findSession m id).isSome

/-- `sessions.set(id, s)`: replace the binding if the key is present,
otherwise append. -/
def setSession (m : List (String × Session)) (id : String) (s : Session) :
    List (String × Session) :=
  if containsSession m id then
    m.map fun kv => if kv.fst = id then (id, s) else kv
  else
    m ++ [(id, s)]

/-- `sessions.delete(id)`: drop the binding for the key. -/
def deleteSession : List (String × Session) → String → List (String × Session)
  | [], _ => []
  | kv :: m, id => if kv.fst = id then deleteSession m id else kv :: deleteSession m id

/-- In-place mutation of the record bound to `id`, as the callbacks and
`stopProcess` do through the shared object reference. -/
def updateSession (m : List (String × Session)) (id : String)
    (f : Session → Session) : List (String × Session) :=
  m.map fun kv => if kv.fst = id then (kv.fst, f kv.snd) else kv

/-- Effect of one `p.onData` chunk on the session record (lines 72-79):
only the buffer changes. -/
def sessionOnData (s : Session) (data now : String) : Session :=
  { s with output := onDataPush s.output (OutputEvent.stdout data now) }

/-- Effect of the `p.onExit` callback on the session record (lines 81-95):
`isRunning=false`, both exit fields recorded, exit marker appended. -/
def sessionOnExit (s : Session) (exitCode signal : Int) (now : String) : Session :=
  { s with isRunning := false, exitCode := some exitCode,
           exitSignal := some signal,
           output := onExitPush s.output (OutputEvent.exitMarker exitCode signal now) }

/-! ## The MCP tool handlers -/

/-- Arguments of the `startProcess` tool (lines 22-30 / 38), after zod
validation and defaulting.  `env` is the caller-supplied environment object,
embedded as a partial map. -/
structure StartParams where
  cmd : String
  args : List String
  cwd : String
  env : String → Option String
  cols : Nat
  rows : Nat
  shellOnWindows : Bool

/-- `const exe = isWin && shellOnWindows ? "powershell.exe" : cmd` (line 40). -/
def resolvedExe (isWin : Bool) (p : StartParams) : String :=
  if isWin && p.shellOnWindows then "powershell.exe" else p.cmd

/-- Lines 41-43: when shell-wrapping on Windows the argument vector becomes
the PowerShell preamble plus the space-joined command line. -/
def resolvedArgv (isWin : Bool) (p : StartParams) : List String :=
  if isWin && p.shellOnWindows then
    ["-NoLogo", "-Command", p.cmd ++ " " ++ String.intercalate " " p.args]
  else p.args

/-- `{ ...process.env, ...env }` (line 50): object-spread merge, the later
(caller) object wins on key collisions, keys absent from the caller fall
back to the server's own environment. -/
def mergedEnv (procEnv callerEnv : String → Option String) : String → Option String :=
  fun k =>
    match callerEnv k with
    | some v => some v
    | none => procEnv k

/-- The options object passed to `pty.spawn` (lines 45-51). -/
structure PtySpawnOptions where
  name : String
  cols : Nat
  rows : Nat
  cwd : String
  env : String → Option String

def spawnOptions (procEnv : String → Option String) (p : StartParams) :
    PtySpawnOptions :=
  { name := "xterm-color", cols := p.cols, rows := p.rows, cwd := p.cwd,
    env := mergedEnv procEnv p.env }

/-- Outcome of the `pty.spawn` call: either a live handle (its pid) or a
thrown exception (its message). -/
inductive SpawnResult where
  | ok (pid : Nat)
  | threw (err : String)

/-- Structured result of the `startProcess` tool (lines 31-36, 97-101). -/
structure StartResult where
  ok : Bool
  sessionId : Option String
  pid : Option Nat
  error : Option String
  deriving DecidableEq, Repr

/-- The `startProcess` handler (lines 38-107).  `spawn` is the PTY adapter:
it receives the exact executable, argv and options the handler computes and
reports success or a thrown exception.  The source wraps the `pty.spawn`
call in no try/catch, so a throw aborts the handler before
`sessions.set` runs: the model propagates it as `Except.error`. -/
def startProcess (isWin : Bool) (procEnv : String → Option String)
    (spawn : String → List String → PtySpawnOptions → SpawnResult)
    (uuid now : String) (st : ServerState) (p : StartParams) :
    Except String (ServerState × StartResult) :=
  let exe := resolvedExe isWin p
  let argv := resolvedArgv isWin p
  match spawn exe argv (spawnOptions procEnv p) with
  | SpawnResult.threw e => Except.error e
  | SpawnResult.ok pid =>
      let s := newSession pid p.cwd exe argv p.cols p.rows now
      Except.ok ({ sessions := setSession st.sessions uuid s },
        { ok := true, sessionId := some uuid, pid := some pid, error := none })

/-- `Array.prototype.slice(begin)` start index: a negative `begin` counts
from the end (clamped at 0), a non-negative one is used directly (`drop`
clamps at the length). -/
def jsSliceStart (len : Nat) (i : Int) : Nat :=
  if i < 0 then ((len : Int) + i).toNat else i.toNat

/-- `arr.slice(fromIndex)` for a one-argument call (line 174). -/
def jsSlice (l : List OutputEvent) (i : Int) : List OutputEvent :=
  l.drop (jsSliceStart l.length i)

/-- Structured result of the `getSessionOutput` tool (lines 153-162).
`exitCode`/`exitSignal` are nullable fields of an optional key, hence
`Option (Option Int)`. -/
structure GetOutputResult where
  ok : Bool
  sessionId : Option String
  isRunning : Option Bool
  exitCode : Option (Option Int)
  exitSignal : Option (Option Int)
  output : Option (List OutputEvent)
  totalLines : Option Nat
  error : Option String
  deriving DecidableEq, Repr

/-- The `getSessionOutput` handler (lines 164-189): read-only; returns the
slice from `fromIndex` and `totalLines = s.output.length`. -/
def getSessionOutput (st : ServerState) (sessionId : String) (fromIndex : Int) :
    GetOutputResult :=
  match findSession st.sessions sessionId with
  | none =>
      { ok := false, sessionId := none, isRunning := none, exitCode := none,
        exitSignal := none, output := none, totalLines := none,
        error := some "Session not found" }
  | some s =>
      { ok := true, sessionId := some sessionId, isRunning := some s.isRunning,
        exitCode := some s.exitCode, exitSignal := some s.exitSignal,
        output := some (jsSlice s.output fromIndex),
        totalLines := some s.output.length, error := none }

/-- Structured result of the `stopProcess` tool (lines 238-242). -/
structure StopResult where
  ok : Bool
  killed : Option Bool
  error : Option String
  deriving DecidableEq, Repr

/-- The `stopProcess` handler (lines 244-270).  `killSucceeds` tells whether
`s.pty.kill()` returns or throws; `killErr` is `String(e)` for the thrown
exception.  On success the handler itself sets `s.isRunning = false`
(line 255) and keeps the record; on a throw it returns the error value
having changed nothing. -/
def stopProcess (st : ServerState) (sessionId : String)
    (killSucceeds : Bool) (killErr : String) : ServerState × StopResult :=
  match findSession st.sessions sessionId with
  | none => (st, { ok := false, killed := none, error := some "Session not found" })
  | some _ =>
      if killSucceeds then
        ({ sessions := updateSession st.sessions sessionId
             fun s => { s with isRunning := false } },
         { ok := true, killed := some true, error := none })
      else
        (st, { ok := false, killed := none, error := some killErr })

/-- Structured result of the `cleanupSessions` tool (lines 282-286). -/
structure CleanupResult where
  ok : Bool
  cleaned : Option Nat
  error : Option String
  deriving DecidableEq, Repr

/-- The `cleanupSessions` handler (lines 288-327): with an id, remove that
record iff it exists and is not running; without an id, remove every
non-running record and report the count. -/
def cleanupSessions (st : ServerState) (sessionId : Option String) :
    ServerState × CleanupResult :=
  match sessionId with
  | some id =>
      match findSession st.sessions id with
      | none =>
          (st, { ok := false, cleaned := none, error := some "Session not found" })
      | some s =>
          if s.isRunning then
            (st, { ok := false, cleaned := none,
                   error := some "Session is still running" })
          else
            ({ sessions := deleteSession st.sessions id },
             { ok := true, cleaned := some 1, error := none })
  | none =>
      ({ sessions := st.sessions.filter fun kv => kv.snd.isRunning },
       { ok := true,
         cleaned := some (st.sessions.filter fun kv => !kv.snd.isRunning).length,
         error := none })

/-! ## Executions as operation traces

Only five code paths mutate the registry: a successful spawn registering a
fresh record, the two PTY callbacks, a successful `stopProcess` kill (or a
throwing one, which changes nothing), and `cleanupSessions`.  `writeInput`
forwards bytes to the PTY and leaves the registry untouched.  An execution
is a fold of such operations from the empty state. -/

inductive Op where
  /-- A `startProcess` call whose spawn succeeded, with the resolved
  executable and argv it registered under the fresh uuid. -/
  | start (uuid : String) (pid : Nat) (cwd exe : String) (argv : List String)
      (cols rows : Nat) (now : String)
  /-- One `p.onData` chunk delivered for the session. -/
  | data (id : String) (chunk now : String)
  /-- The `p.onExit` notification for the session. -/
  | exit (id : String) (code sig : Int) (now : String)
  /-- A `writeInput` call: bytes go to the PTY, registry unchanged. -/
  | write (id : String) (bytes : String)
  /-- A `stopProcess` call; `killSucceeds` is whether `pty.kill()` returned. -/
  | stop (id : String) (killSucceeds : Bool)
  /-- A `cleanupSessions` call. -/
  | cleanup (id : Option String)
  deriving DecidableEq, Repr

def applyOp (st : ServerState) : Op → ServerState
  | Op.start uuid pid cwd exe argv cols rows now =>
      { sessions := setSession st.sessions uuid
          (newSession pid cwd exe argv cols rows now) }
  | Op.data id chunk now =>
      { sessions := updateSession st.sessions id fun s => sessionOnData s chunk now }
  | Op.exit id code sig now =>
      { sessions := updateSession st.sessions id fun s => sessionOnExit s code sig now }
  | Op.write _ _ => st
  | Op.stop id killSucceeds => (stopProcess st id killSucceeds "kill failed").fst
  | Op.cleanup id => (cleanupSessions st id).fst

def applyOps (st : ServerState) (ops : List Op) : ServerState :=
  ops.foldl applyOp st

/-- Does this operation append an event to `id`'s output buffer? -/
def appendsTo (id : String) : Op → Bool
  | Op.data i _ _ => i = id
  | Op.exit i _ _ _ => i = id
  | _ => false

/-- Cumulative number of events ever appended to `id`'s buffer over a
trace: the spec's "true cumulative count". -/
def appendCount (ops : List Op) (id : String) : Nat :=
  (ops.filter (appendsTo id)).length

/-- Operations that neither re-register nor remove the record bound to
`id` (its buffer then evolves only by appends). -/
def preservesSession (id : String) : Op → Bool
  | Op.start i _ _ _ _ _ _ _ => i ≠ id
  | Op.cleanup (some i) => i ≠ id
  | Op.cleanup none => false
  | _ => true

/-- `n` successive onData pushes of the same event. -/
def onDataIter : Nat → List OutputEvent → OutputEvent → List OutputEvent
  | 0, buf, _ => buf
  | n + 1, buf, ev => onDataIter n (onDataPush buf ev) ev

/-! ## Specification predicates -/

/-- The dichotomy the spec claims for every session at every time: either
running with both exit fields unset, or stopped with both exit fields set. -/
def claimedSessionDichotomy (s : Session) : Prop :=
  (s.isRunning = true ∧ s.exitCode = none ∧ s.exitSignal = none) ∨
  (s.isRunning = false ∧ s.exitCode ≠ none ∧ s.exitSignal ≠ none)

/-- The claimed dichotomy over the whole registry. -/
def dichotomyHolds (st : ServerState) : Prop :=
  ∀ kv ∈ st.sessions, claimedSessionDichotomy kv.snd

/-- The invariant the code actually maintains: a running session has no
exit fields, and the exit fields are set together.  (It admits a third
state, `isRunning=false` with exit fields unset, produced by a successful
`stopProcess` before the exit callback fires.) -/
def sessionStateOk (s : Session) : Prop :=
  (s.isRunning = true → s.exitCode = none ∧ s.exitSignal = none) ∧
  (s.exitCode = none ↔ s.exitSignal = none)

/-! ## Concrete fixtures used by the counterexamples and witnesses -/

def exStart : Op := Op.start "sess" 42 "/tmp" "bash" ["-c", "x"] 120 30 "t0"

def exSession : Session := newSession 42 "/tmp" "bash" ["-c", "x"] 120 30 "t0"

def exState : ServerState := applyOp emptyState exStart

/-- A state whose only session has exited (exit callback delivered). -/
def exStoppedState : ServerState := applyOps emptyState [exStart, Op.exit "sess" 0 0 "t1"]

def exExitedSession : Session := sessionOnExit exSession 0 0 "t1"

/-- Registration followed by 10001 stdout chunks: one more than the
capacity bound. -/
def c1Trace : List Op := exStart :: List.replicate 10001 (Op.data "sess" "x" "t1")

/-- Registration, exactly 10000 stdout chunks (filling the buffer), then
the exit notification. -/
def c4Trace : List Op :=
  exStart :: (List.replicate 10000 (Op.data "sess" "x" "t1") ++ [Op.exit "sess" 0 0 "t2"])

/-- A PTY adapter whose spawn always throws (bad executable, bad cwd, OS
error). -/
def failingSpawn : String → List String → PtySpawnOptions → SpawnResult :=
  fun _ _ _ => SpawnResult.threw "Error: spawn ENOENT"

def emptyEnv : String → Option String := fun _ => none

def c5Params : StartParams :=
  { cmd := "/nonexistent", args := [], cwd := "/tmp", env := emptyEnv,
    cols := 120, rows := 30, shellOnWindows := false }

/-- A two-chunk session used to probe `fromIndex` handling. -/
def c7State : ServerState :=
  applyOps emptyState [exStart, Op.data "sess" "a" "t1", Op.data "sess" "b" "t2"]

def c9ProcEnv : String → Option String := fun k =>
  if k = "PATH" then some "/usr/bin" else if k = "HOME" then some "/root" else none

def c9CallerEnv : String → Option String := fun k =>
  if k = "PATH" then some "/opt/bin" else none

def c9Params : StartParams :=
  { cmd := "env", args := [], cwd := "/", env := c9CallerEnv,
    cols := 120, rows := 30, shellOnWindows := false }

/-! ## The wait-mode runner, modelled from the spec -/

/-- Result record of the wait-mode start (spec section 4.4 and the
`startProcessAndWait` tests). -/
structure WaitResult where
  ok : Bool
  exitCode : Option Int
  exitSignal : Option Int
  output : Option (List OutputEvent)
  error : Option String
  deriving DecidableEq, Repr

/-- What the child did before the deadline: exited (with code/signal at
some time), or was still running when `timeoutMs` elapsed. -/
inductive ChildBehavior where
  | exits (code sig : Int) (now : String)
  | runsPastDeadline
  deriving DecidableEq, Repr

/-- Modelled from the spec: the `startProcessAndWait` tool (spec §4.4
"Wait-mode runner") is not among the provided source files — only its
tests and README mention it.  Per the spec it performs the same spawn and
registration as `start`, buffers the output chunks the child produces,
and blocks until the exit callback or the deadline, whichever is first:
on exit it returns `ok:true` with the exit code, signal and the full
captured output; on timeout it forcibly terminates the child by the same
mechanism as `stop` (which sets `isRunning=false`), returns `ok:false`
with a timeout error, and leaves the session record registered. -/
def startProcessAndWait (st : ServerState) (uuid : String) (pid : Nat)
    (cwd exe : String) (argv : List String) (cols rows : Nat) (now : String)
    (chunks : List (String × String)) (child : ChildBehavior)
    (timeoutMs : Nat) : ServerState × WaitResult :=
  let s0 := newSession pid cwd exe argv cols rows now
  let s1 := chunks.foldl (fun s dt => sessionOnData s dt.fst dt.snd) s0
  match child with
  | ChildBehavior.exits code sig tEnd =>
      let s2 := sessionOnExit s1 code sig tEnd
      ({ sessions := setSession st.sessions uuid s2 },
       { ok := true, exitCode := some code, exitSignal := some sig,
         output := some s2.output, error := none })
  | ChildBehavior.runsPastDeadline =>
      let s2 := { s1 with isRunning := false }
      ({ sessions := setSession st.sessions uuid s2 },
       { ok := false, exitCode := none, exitSignal := none,
         output := some s2.output,
         error := some ("timeout after " ++ toString timeoutMs ++ "ms") })

/-! ## Lemmas about the session map -/

theorem findSession_append (m l : List (String × Session)) (id : String) :
    findSession (m ++ l) id =
      match findSession m id with
      | some v => some v
      | none => findSession l id := by
  induction m with
  | nil => simp [findSession]
  | cons kv m ih =>
    by_cases h : kv.fst = id
    · simp [findSession, h]
    · simp [findSession, h, ih]

theorem findSession_updateSession (m : List (String × Session)) (i : String)
    (f : Session → Session) (id : String) :
    findSession (updateSession m i f) id =
      if i = id then (findSession m id).map f else findSession m id := by
  by_cases hiid : i = id
  · subst hiid
    rw [if_pos rfl]
    induction m with
    | nil => simp [updateSession, findSession]
    | cons kv m ih =>
      by_cases hk : kv.fst = i
      · simp [updateSession, findSession, hk]
      · simp only [updateSession, List.map_cons] at ih ⊢
        simp [findSession, hk, ih]
  · rw [if_neg hiid]
    have hdi : ¬ id = i := fun h => hiid h.symm
    induction m with
    | nil => simp [updateSession, findSession]
    | cons kv m ih =>
      simp only [updateSession, List.map_cons] at ih ⊢
      by_cases hk : kv.fst = i
      · have hkd : ¬ kv.fst = id := fun h => hiid (by rw [← hk]; exact h)
        simp [findSession, hk, hkd, hiid, hdi, ih]
      · by_cases hkd : kv.fst = id
        · simp [findSession, hk, hkd, hiid, hdi]
        · simp [findSession, hk, hkd, ih]

theorem findSession_deleteSession (m : List (String × Session)) (i id : String) :
    findSession (deleteSession m i) id =
      if i = id then none else findSession m id := by
  by_cases hiid : i = id
  · subst hiid
    rw [if_pos rfl]
    induction m with
    | nil => simp [deleteSession, findSession]
    | cons kv m ih =>
      by_cases hk : kv.fst = i
      · simp [deleteSession, hk, ih]
      · simp [deleteSession, findSession, hk, ih]
  · rw [if_neg hiid]
    have hdi : ¬ id = i := fun h => hiid h.symm
    induction m with
    | nil => simp [deleteSession, findSession]
    | cons kv m ih =>
      by_cases hk : kv.fst = i
      · have hkd : ¬ kv.fst = id := fun h => hiid (by rw [← hk]; exact h)
        simp [deleteSession, findSession, hk, hkd, hiid, hdi, ih]
      · by_cases hkd : kv.fst = id
        · simp [deleteSession, findSession, hk, hkd, hiid, hdi]
        · simp [deleteSession, findSession, hk, hkd, ih]

theorem findSession_replaceMap_self (m : List (String × Session)) (i : String)
    (s : Session) (hc : containsSession m i = true) :
    findSession (m.map fun kv => if kv.fst = i then (i, s) else kv) i = some s := by
  induction m with
  | nil => simp [containsSession, findSession] at hc
  | cons kv m ih =>
    by_cases hk : kv.fst = i
    · simp [findSession, hk]
    · have hc' : containsSession m i = true := by
        simpa [containsSession, findSession, hk] using hc
      simp [findSession, hk, ih hc']

theorem findSession_replaceMap_other (m : List (String × Session)) (i : String)
    (s : Session) (id : String) (hiid : ¬ i = id) :
    findSession (m.map fun kv => if kv.fst = i then (i, s) else kv) id =
      findSession m id := by
  have hdi : ¬ id = i := fun h => hiid h.symm
  induction m with
  | nil => simp [findSession]
  | cons kv m ih =>
    by_cases hk : kv.fst = i
    · have hkd : ¬ kv.fst = id := fun h => hiid (by rw [← hk]; exact h)
      simp [findSession, hk, hkd, hiid, hdi, ih]
    · by_cases hkd : kv.fst = id
      · simp [findSession, hk, hkd, hiid, hdi]
      · simp [findSession, hk, hkd, ih]

theorem findSession_setSession (m : List (String × Session)) (i : String)
    (s : Session) (id : String) :
    findSession (setSession m i s) id =
      if i = id then some s else findSession m id := by
  unfold setSession
  by_cases hc : containsSession m i = true
  · rw [if_pos hc]
    by_cases hiid : i = id
    · subst hiid
      rw [if_pos rfl]
      exact findSession_replaceMap_self m i s hc
    · rw [if_neg hiid]
      exact findSession_replaceMap_other m i s id hiid
  · rw [if_neg hc, findSession_append]
    by_cases hiid : i = id
    · subst hiid
      have hnone : findSession m i = none := by
        cases h : findSession m i with
        | none => rfl
        | some v => exact absurd (by simp [containsSession, h]) hc
      simp [hnone, findSession]
    · rw [if_neg hiid]
      cases h : findSession m id with
      | none => simp [findSession, hiid, h]
      | some v => simp [h]

/-! ## Lemmas about the output buffer -/

theorem length_onDataPush (buf : List OutputEvent) (ev : OutputEvent) :
    (onDataPush buf ev).length =
      if buf.length + 1 > maxBufferSize then buf.length else buf.length + 1 := by
  simp only [onDataPush]
  by_cases h : buf.length + 1 > maxBufferSize
  · rw [if_pos h, if_pos (by simpa using h)]
    simp
  · rw [if_neg h, if_neg (by simpa using h)]
    simp

theorem length_onExitPush (buf : List OutputEvent) (ev : OutputEvent) :
    (onExitPush buf ev).length = buf.length + 1 := by
  simp [onExitPush]

/-- When the buffer is exactly full, a data push evicts the single oldest
event: FIFO order. -/
theorem onDataPush_full (buf : List OutputEvent) (ev : OutputEvent)
    (h : buf.length = maxBufferSize) :
    onDataPush buf ev = buf.drop 1 ++ [ev] := by
  simp only [onDataPush]
  rw [if_pos (by simp [h, maxBufferSize])]
  rw [List.drop_append_of_le_length (by simp [h, maxBufferSize])]

/-- Below capacity, a data push is a plain append. -/
theorem onDataPush_not_full (buf : List OutputEvent) (ev : OutputEvent)
    (h : buf.length < maxBufferSize) :
    onDataPush buf ev = buf ++ [ev] := by
  simp only [onDataPush]
  rw [if_neg (by simp; omega)]

theorem length_onDataIter (n : Nat) : ∀ (buf : List OutputEvent) (ev : OutputEvent),
    buf.length ≤ maxBufferSize →
    (onDataIter n buf ev).length = min (buf.length + n) maxBufferSize := by
  induction n with
  | zero => intro buf ev h; simp [onDataIter]; omega
  | succ n ih =>
    intro buf ev h
    have hlen := length_onDataPush buf ev
    have hle : (onDataPush buf ev).length ≤ maxBufferSize := by
      rw [hlen]; split <;> omega
    rw [onDataIter, ih (onDataPush buf ev) ev hle, hlen]
    split <;> omega

/-! ## Trace lemmas -/

theorem applyOps_nil (st : ServerState) : applyOps st [] = st := rfl

theorem applyOps_cons (st : ServerState) (op : Op) (ops : List Op) :
    applyOps st (op :: ops) = applyOps (applyOp st op) ops := rfl

theorem applyOps_append (st : ServerState) (l₁ l₂ : List Op) :
    applyOps st (l₁ ++ l₂) = applyOps (applyOps st l₁) l₂ := by
  simp [applyOps, List.foldl_append]

theorem appendCount_nil (id : String) : appendCount [] id = 0 := rfl

theorem appendCount_cons (op : Op) (ops : List Op) (id : String) :
    appendCount (op :: ops) id =
      (if appendsTo id op then 1 else 0) + appendCount ops id := by
  by_cases h : appendsTo id op = true
  · simp [appendCount, List.filter_cons, h]
    omega
  · simp [appendCount, List.filter_cons, h]

theorem findSession_applyOp_start (st : ServerState) (uuid : String) (pid : Nat)
    (cwd exe : String) (argv : List String) (cols rows : Nat) (now : String)
    (id : String) (h : ¬ uuid = id) :
    findSession (applyOp st (Op.start uuid pid cwd exe argv cols rows now)).sessions id =
      findSession st.sessions id := by
  simp [applyOp, findSession_setSession, h]

theorem findSession_applyOp_data_self (st : ServerState) (id chunk now : String) :
    findSession (applyOp st (Op.data id chunk now)).sessions id =
      (findSession st.sessions id).map fun s => sessionOnData s chunk now := by
  simp [applyOp, findSession_updateSession]

theorem findSession_applyOp_data_other (st : ServerState) (i chunk now id : String)
    (h : ¬ i = id) :
    findSession (applyOp st (Op.data i chunk now)).sessions id =
      findSession st.sessions id := by
  simp [applyOp, findSession_updateSession, h]

theorem findSession_applyOp_exit_self (st : ServerState) (id : String)
    (code sig : Int) (now : String) :
    findSession (applyOp st (Op.exit id code sig now)).sessions id =
      (findSession st.sessions id).map fun s => sessionOnExit s code sig now := by
  simp [applyOp, findSession_updateSession]

theorem findSession_applyOp_exit_other (st : ServerState) (i : String)
    (code sig : Int) (now id : String) (h : ¬ i = id) :
    findSession (applyOp st (Op.exit i code sig now)).sessions id =
      findSession st.sessions id := by
  simp [applyOp, findSession_updateSession, h]

/-- A `stopProcess` call never changes any session's output buffer (it can
only flip `isRunning`). -/
theorem findSession_applyOp_stop_output (st : ServerState) (i : String)
    (killOk : Bool) (id : String) (s : Session)
    (h : findSession st.sessions id = some s) :
    ∃ s₁, findSession (applyOp st (Op.stop i killOk)).sessions id = some s₁ ∧
      s₁.output = s.output ∧ s₁.exitCode = s.exitCode ∧
      s₁.exitSignal = s.exitSignal := by
  simp only [applyOp, stopProcess]
  cases hfi : findSession st.sessions i with
  | none => exact ⟨s, by simpa using h, rfl, rfl, rfl⟩
  | some s₂ =>
    by_cases hk : killOk
    · subst hk
      by_cases hi : i = id
      · subst hi
        refine ⟨{ s with isRunning := false }, ?_, rfl, rfl, rfl⟩
        simp [findSession_updateSession, h]
      · exact ⟨s, by simp [findSession_updateSession, hi, h], rfl, rfl, rfl⟩
    · simp only [Bool.not_eq_true] at hk
      subst hk
      exact ⟨s, by simpa using h, rfl, rfl, rfl⟩

/-- `cleanupSessions` on a different id leaves this id's binding alone. -/
theorem findSession_applyOp_cleanup_some (st : ServerState) (i id : String)
    (h : ¬ i = id) :
    findSession (applyOp st (Op.cleanup (some i))).sessions id =
      findSession st.sessions id := by
  simp only [applyOp, cleanupSessions]
  cases hfi : findSession st.sessions i with
  | none => rfl
  | some s₂ =>
    by_cases hr : s₂.isRunning = true
    · simp [hr]
    · simp only [Bool.not_eq_true] at hr
      simp [hr, findSession_deleteSession, h]

/-- Core buffer law over arbitrary traces: as long as a trace neither
re-registers nor removes the session, the retained buffer length never
exceeds the cumulative number of appended events, and the two agree
exactly while the cumulative count stays within `maxBufferSize` (before
any eviction). -/
theorem retained_le_appendCount (ops : List Op) :
    ∀ (st : ServerState) (id : String) (s : Session),
      findSession st.sessions id = some s →
      (∀ op ∈ ops, preservesSession id op = true) →
      ∃ s', findSession (applyOps st ops).sessions id = some s' ∧
        s'.output.length ≤ s.output.length + appendCount ops id ∧
        (s.output.length + appendCount ops id ≤ maxBufferSize →
          s'.output.length = s.output.length + appendCount ops id) := by
  induction ops with
  | nil =>
    intro st id s h _
    refine ⟨s, by simpa [applyOps_nil] using h, ?_, ?_⟩
    · simp [appendCount_nil]
    · intro _; simp [appendCount_nil]
  | cons op ops ih =>
    intro st id s h hben
    have hop : preservesSession id op = true := hben op (by simp)
    have hrest : ∀ o ∈ ops, preservesSession id o = true := fun o ho =>
      hben o (by simp [ho])
    rw [applyOps_cons]
    cases op with
    | start uuid pid cwd exe argv cols rows now =>
      have hne : ¬ uuid = id := by simpa [preservesSession] using hop
      have hfind := findSession_applyOp_start st uuid pid cwd exe argv cols rows now id hne
      obtain ⟨s', h1, h2, h3⟩ := ih _ id s (by rw [hfind]; exact h) hrest
      have happ : appendsTo id (Op.start uuid pid cwd exe argv cols rows now) = false := rfl
      refine ⟨s', h1, ?_, ?_⟩
      · rw [appendCount_cons, happ]; simpa using h2
      · rw [appendCount_cons, happ]; simpa using h3
    | data i chunk now =>
      by_cases hi : i = id
      · subst hi
        have hfind := findSession_applyOp_data_self st i chunk now
        rw [h] at hfind
        have hlen : (sessionOnData s chunk now).output.length =
            if s.output.length + 1 > maxBufferSize then s.output.length
            else s.output.length + 1 := by
          simpa [sessionOnData] using length_onDataPush s.output (OutputEvent.stdout chunk now)
        have hA : (sessionOnData s chunk now).output.length ≤ s.output.length + 1 := by
          rw [hlen]; split <;> omega
        have hB : s.output.length + 1 ≤ maxBufferSize →
            (sessionOnData s chunk now).output.length = s.output.length + 1 := by
          intro hle; rw [hlen, if_neg (by omega)]
        obtain ⟨s', h1, h2, h3⟩ := ih _ i (sessionOnData s chunk now) (by simpa using hfind) hrest
        have happ : appendsTo i (Op.data i chunk now) = true := by simp [appendsTo]
        refine ⟨s', h1, ?_, ?_⟩
        · rw [appendCount_cons, happ]
          simp only [if_true]
          omega
        · rw [appendCount_cons, happ]
          simp only [if_true]
          intro hcum
          have hb := hB (by omega)
          have h3' := h3 (by omega)
          omega
      · have hfind := findSession_applyOp_data_other st i chunk now id hi
        obtain ⟨s', h1, h2, h3⟩ := ih _ id s (by rw [hfind]; exact h) hrest
        have happ : appendsTo id (Op.data i chunk now) = false := by
          simp [appendsTo, hi]
        refine ⟨s', h1, ?_, ?_⟩
        · rw [appendCount_cons, happ]; simpa using h2
        · rw [appendCount_cons, happ]; simpa using h3
    | exit i code sig now =>
      by_cases hi : i = id
      · subst hi
        have hfind := findSession_applyOp_exit_self st i code sig now
        rw [h] at hfind
        have hA : (sessionOnExit s code sig now).output.length = s.output.length + 1 := by
          simpa [sessionOnExit] using
            length_onExitPush s.output (OutputEvent.exitMarker code sig now)
        obtain ⟨s', h1, h2, h3⟩ := ih _ i (sessionOnExit s code sig now) (by simpa using hfind) hrest
        have happ : appendsTo i (Op.exit i code sig now) = true := by simp [appendsTo]
        refine ⟨s', h1, ?_, ?_⟩
        · rw [appendCount_cons, happ]
          simp only [if_true]
          omega
        · rw [appendCount_cons, happ]
          simp only [if_true]
          intro hcum
          have h3' := h3 (by omega)
          omega
      · have hfind := findSession_applyOp_exit_other st i code sig now id hi
        obtain ⟨s', h1, h2, h3⟩ := ih _ id s (by rw [hfind]; exact h) hrest
        have happ : appendsTo id (Op.exit i code sig now) = false := by
          simp [appendsTo, hi]
        refine ⟨s', h1, ?_, ?_⟩
        · rw [appendCount_cons, happ]; simpa using h2
        · rw [appendCount_cons, happ]; simpa using h3
    | write i bytes =>
      obtain ⟨s', h1, h2, h3⟩ := ih _ id s h hrest
      have happ : appendsTo id (Op.write i bytes) = false := rfl
      refine ⟨s', h1, ?_, ?_⟩
      · rw [appendCount_cons, happ]; simpa using h2
      · rw [appendCount_cons, happ]; simpa using h3
    | stop i killOk =>
      obtain ⟨s₁, hf1, hout, _, _⟩ := findSession_applyOp_stop_output st i killOk id s h
      obtain ⟨s', h1, h2, h3⟩ := ih _ id s₁ hf1 hrest
      have happ : appendsTo id (Op.stop i killOk) = false := rfl
      rw [hout] at h2 h3
      refine ⟨s', h1, ?_, ?_⟩
      · rw [appendCount_cons, happ]; simpa using h2
      · rw [appendCount_cons, happ]; simpa using h3
    | cleanup oid =>
      cases oid with
      | none => simp [preservesSession] at hop
      | some i =>
        have hne : ¬ i = id := by simpa [preservesSession] using hop
        have hfind := findSession_applyOp_cleanup_some st i id hne
        obtain ⟨s', h1, h2, h3⟩ := ih _ id s (by rw [hfind]; exact h) hrest
        have happ : appendsTo id (Op.cleanup (some i)) = false := rfl
        refine ⟨s', h1, ?_, ?_⟩
        · rw [appendCount_cons, happ]; simpa using h2
        · rw [appendCount_cons, happ]; simpa using h3

/-- Repeated data delivery rewrites the session's buffer by iterated
pushes. -/
theorem findSession_applyOps_dataReplicate (n : Nat) :
    ∀ (st : ServerState) (id chunk now : String) (s : Session),
      findSession st.sessions id = some s →
      findSession (applyOps st (List.replicate n (Op.data id chunk now))).sessions id =
        some { s with output := onDataIter n s.output (OutputEvent.stdout chunk now) } := by
  induction n with
  | zero =>
    intro st id chunk now s h
    simpa [applyOps_nil, onDataIter] using h
  | succ n ih =>
    intro st id chunk now s h
    rw [List.replicate_succ, applyOps_cons]
    have hfind := findSession_applyOp_data_self st id chunk now
    rw [h] at hfind
    have := ih _ id chunk now (sessionOnData s chunk now) (by simpa using hfind)
    simpa [sessionOnData, onDataIter] using this

theorem appendCount_replicate (n : Nat) (op : Op) (id : String) :
    appendCount (List.replicate n op) id = if appendsTo id op then n else 0 := by
  induction n with
  | zero => rw [List.replicate]; rw [appendCount_nil]; split <;> rfl
  | succ n ih =>
    rw [List.replicate_succ, appendCount_cons, ih]
    split <;> omega

/-! ## Membership lemmas and the reachable-state invariant -/

theorem mem_setSession (m : List (String × Session)) (i : String) (s : Session)
    (kv : String × Session) (h : kv ∈ setSession m i s) :
    kv ∈ m ∨ kv.snd = s := by
  unfold setSession at h
  by_cases hc : containsSession m i = true
  · rw [if_pos hc] at h
    obtain ⟨kv₀, hkv₀, hmap⟩ := List.mem_map.mp h
    by_cases hk : kv₀.fst = i
    · right; rw [← hmap, if_pos hk]
    · left; rw [← hmap, if_neg hk]; exact hkv₀
  · rw [if_neg hc] at h
    rcases List.mem_append.mp h with h1 | h2
    · exact Or.inl h1
    · right
      have : kv = (i, s) := by simpa using h2
      rw [this]

theorem mem_updateSession (m : List (String × Session)) (i : String)
    (f : Session → Session) (kv : String × Session) (h : kv ∈ updateSession m i f) :
    (∃ kv₀ ∈ m, kv = (kv₀.fst, f kv₀.snd)) ∨ kv ∈ m := by
  unfold updateSession at h
  obtain ⟨kv₀, hkv₀, hmap⟩ := List.mem_map.mp h
  by_cases hk : kv₀.fst = i
  · exact Or.inl ⟨kv₀, hkv₀, by rw [← hmap, if_pos hk]⟩
  · right; rw [← hmap, if_neg hk]; exact hkv₀

theorem mem_deleteSession (m : List (String × Session)) (i : String)
    (kv : String × Session) (h : kv ∈ deleteSession m i) : kv ∈ m := by
  induction m with
  | nil => simp [deleteSession] at h
  | cons kv₀ m ih =>
    simp only [deleteSession] at h
    by_cases hk : kv₀.fst = i
    · rw [if_pos hk] at h
      exact List.mem_cons_of_mem _ (ih h)
    · rw [if_neg hk] at h
      rcases List.mem_cons.mp h with h1 | h2
      · exact h1 ▸ List.mem_cons_self _ _
      · exact List.mem_cons_of_mem _ (ih h2)

theorem sessionStateOk_newSession (pid : Nat) (cwd cmd : String)
    (args : List String) (cols rows : Nat) (startedAt : String) :
    sessionStateOk (newSession pid cwd cmd args cols rows startedAt) := by
  simp [sessionStateOk, newSession]

theorem sessionStateOk_onData (s : Session) (chunk now : String)
    (h : sessionStateOk s) : sessionStateOk (sessionOnData s chunk now) := by
  simpa [sessionStateOk, sessionOnData] using h

theorem sessionStateOk_onExit (s : Session) (code sig : Int) (now : String) :
    sessionStateOk (sessionOnExit s code sig now) := by
  simp [sessionStateOk, sessionOnExit]

theorem sessionStateOk_stopped (s : Session) (h : sessionStateOk s) :
    sessionStateOk { s with isRunning := false } := by
  refine ⟨fun hc => by simp at hc, ?_⟩
  exact h.2

/-- Every operation preserves the invariant for every registered session. -/
theorem stateOk_applyOp (st : ServerState) (op : Op)
    (h : ∀ kv ∈ st.sessions, sessionStateOk kv.snd) :
    ∀ kv ∈ (applyOp st op).sessions, sessionStateOk kv.snd := by
  cases op with
  | start uuid pid cwd exe argv cols rows now =>
    intro kv hkv
    simp only [applyOp] at hkv
    rcases mem_setSession _ _ _ kv hkv with h1 | h2
    · exact h kv h1
    · rw [h2]; exact sessionStateOk_newSession pid cwd exe argv cols rows now
  | data i chunk now =>
    intro kv hkv
    simp only [applyOp] at hkv
    rcases mem_updateSession _ _ _ kv hkv with ⟨kv₀, hkv₀, hkv'⟩ | h2
    · rw [hkv']
      exact sessionStateOk_onData kv₀.snd chunk now (h kv₀ hkv₀)
    · exact h kv h2
  | exit i code sig now =>
    intro kv hkv
    simp only [applyOp] at hkv
    rcases mem_updateSession _ _ _ kv hkv with ⟨kv₀, hkv₀, hkv'⟩ | h2
    · rw [hkv']
      exact sessionStateOk_onExit kv₀.snd code sig now
    · exact h kv h2
  | write i bytes => exact h
  | stop i killOk =>
    intro kv hkv
    cases hfi : findSession st.sessions i with
    | none =>
      simp only [applyOp, stopProcess, hfi] at hkv
      exact h kv hkv
    | some s₂ =>
      simp only [applyOp, stopProcess, hfi] at hkv
      by_cases hk : killOk = true
      · rw [if_pos hk] at hkv
        have hkv2 : kv ∈ updateSession st.sessions i
            (fun s => { s with isRunning := false }) := hkv
        rcases mem_updateSession _ _ _ kv hkv2 with ⟨kv₀, hkv₀, hkv'⟩ | h2
        · rw [hkv']
          exact sessionStateOk_stopped kv₀.snd (h kv₀ hkv₀)
        · exact h kv h2
      · rw [if_neg hk] at hkv
        exact h kv hkv
  | cleanup oid =>
    cases oid with
    | some i =>
      intro kv hkv
      cases hfi : findSession st.sessions i with
      | none =>
        simp only [applyOp, cleanupSessions, hfi] at hkv
        exact h kv hkv
      | some s₂ =>
        simp only [applyOp, cleanupSessions, hfi] at hkv
        by_cases hr : s₂.isRunning = true
        · rw [if_pos hr] at hkv
          exact h kv hkv
        · rw [if_neg hr] at hkv
          exact h kv (mem_deleteSession _ _ kv hkv)
    | none =>
      intro kv hkv
      simp only [applyOp, cleanupSessions] at hkv
      exact h kv (List.mem_filter.mp hkv).1

theorem stateOk_applyOps (ops : List Op) :
    ∀ st : ServerState, (∀ kv ∈ st.sessions, sessionStateOk kv.snd) →
      ∀ kv ∈ (applyOps st ops).sessions, sessionStateOk kv.snd := by
  induction ops with
  | nil => intro st h; simpa [applyOps_nil] using h
  | cons op ops ih =>
    intro st h
    rw [applyOps_cons]
    exact ih _ (stateOk_applyOp st op h)

/-- For a registered session, `getSessionOutput` reports the retained
buffer length as `totalLines`. -/
theorem totalLines_getSessionOutput (st : ServerState) (id : String) (i : Int)
    (s : Session) (h : findSession st.sessions id = some s) :
    (getSessionOutput st id i).totalLines = some s.output.length := by
  simp [getSessionOutput, h]

/-! ## Claim theorems -/

/-- C2 (counterexample): the claimed two-state dichotomy fails.  After a
successful `stopProcess` on a freshly started session — before the exit
callback has fired — the registry holds a session with `isRunning=false`
while both exit fields are still unset, which satisfies neither disjunct. -/
theorem c2_dichotomy_counterexample :
    ¬ dichotomyHolds (applyOps emptyState [exStart, Op.stop "sess" true]) := by
  unfold dichotomyHolds claimedSessionDichotomy
  decide

/-- C2 (amended): for every trace of operations from the empty registry,
every registered session satisfies the invariant the code actually
maintains: a running session has both exit fields unset, and the two exit
fields are set together.  Hence each session is in exactly one of three
states: running with no exit fields, stopped with both exit fields set, or
the transient stopped-with-no-exit-fields state produced by a successful
`stopProcess` before its exit callback fires. -/
theorem c2_invariant_amended (ops : List Op) :
    ∀ kv ∈ (applyOps emptyState ops).sessions, sessionStateOk kv.snd :=
  stateOk_applyOps ops emptyState (by simp [emptyState])

theorem c2_invariant_amended_witness :
    sessionStateOk exSession :=
  c2_invariant_amended [exStart] ("sess", exSession) (by decide)

/-- C3 (counterexample): `stopProcess` does modify `isRunning` itself: on
a running session a successful stop flips it to `false` synchronously,
before any exit callback. -/
theorem c3_stop_frame_counterexample :
    (findSession exState.sessions "sess").map Session.isRunning = some true ∧
    (findSession (stopProcess exState "sess" true "e").fst.sessions "sess").map
      Session.isRunning = some false := by
  constructor <;> decide

/-- C3 (amended): on a registered session a successful `stopProcess`
returns `killed: true`, keeps the record registered, leaves `exitCode`,
`exitSignal` and the output buffer untouched, but sets `isRunning` to
`false` itself; the exit fields are only recorded later by the exit
callback (`sessionOnExit`). -/
theorem c3_stop_frame_amended (st : ServerState) (id killErr : String)
    (s : Session) (h : findSession st.sessions id = some s) :
    (stopProcess st id true killErr).snd =
      { ok := true, killed := some true, error := none } ∧
    findSession (stopProcess st id true killErr).fst.sessions id =
      some { s with isRunning := false } ∧
    ({ s with isRunning := false } : Session).exitCode = s.exitCode ∧
    ({ s with isRunning := false } : Session).exitSignal = s.exitSignal ∧
    ({ s with isRunning := false } : Session).output = s.output := by
  refine ⟨?_, ?_, rfl, rfl, rfl⟩
  · simp [stopProcess, h]
  · simp [stopProcess, h, findSession_updateSession]

theorem c3_stop_frame_amended_witness :
    (stopProcess exState "sess" true "e").snd =
      { ok := true, killed := some true, error := none } :=
  (c3_stop_frame_amended exState "sess" "e" exSession (by decide)).1

/-- C5 (counterexample): a throwing `pty.spawn` is not caught inside
`startProcess` and is not converted into an `ok:false` result value —
the exception propagates out of the handler (modelled as `Except.error`),
before any session is registered. -/
theorem c5_spawn_counterexample :
    startProcess false emptyEnv failingSpawn "sess" "t0" emptyState c5Params =
      Except.error "Error: spawn ENOENT" := rfl

/-- C5 (amended): for every input on which the PTY adapter's spawn throws,
`startProcess` propagates the exception (there is no try/catch around
`pty.spawn` and no `SpawnFailed` error value); since `sessions.set` only
runs after a successful spawn, no session is registered on this path —
but the failure does escape the handler as a fault rather than being
returned as an error value. -/
theorem c5_spawn_amended (isWin : Bool) (procEnv : String → Option String)
    (uuid now : String) (st : ServerState) (p : StartParams) (msg : String) :
    startProcess isWin procEnv (fun _ _ _ => SpawnResult.threw msg)
      uuid now st p = Except.error msg := rfl

/-- C7 (counterexample): a negative `fromIndex` is not treated like 0.
With two buffered events, `fromIndex = -1` returns only the last event
(JavaScript `slice` counts negative offsets from the end), while
`fromIndex = 0` returns both. -/
theorem c7_fromindex_counterexample :
    (getSessionOutput c7State "sess" 0).output =
      some [OutputEvent.stdout "a" "t1", OutputEvent.stdout "b" "t2"] ∧
    (getSessionOutput c7State "sess" (-1)).output =
      some [OutputEvent.stdout "b" "t2"] := by
  constructor <;> decide

/-- C7 (amended): for a registered session, offset 0 (the omitted-argument
default) returns all retained events; a non-negative offset drops that many
oldest events; an offset at or beyond the retained length yields an empty
slice rather than an error; but a negative offset follows JavaScript
`slice` semantics and returns the last `|fromIndex|` retained events, not
all of them. -/
theorem c7_fromindex_amended (st : ServerState) (id : String) (i : Int)
    (s : Session) (h : findSession st.sessions id = some s) :
    (getSessionOutput st id 0).output = some s.output ∧
    (0 ≤ i → (getSessionOutput st id i).output =
      some (s.output.drop i.toNat)) ∧
    ((s.output.length : Int) ≤ i →
      (getSessionOutput st id i).output = some []) ∧
    (i < 0 → (getSessionOutput st id i).output =
      some (s.output.drop (((s.output.length : Int) + i).toNat))) := by
  refine ⟨?_, ?_, ?_, ?_⟩
  · simp [getSessionOutput, h, jsSlice, jsSliceStart]
  · intro hi
    simp [getSessionOutput, h, jsSlice, jsSliceStart, not_lt.mpr hi]
  · intro hi
    have hi0 : 0 ≤ i := le_trans (by positivity) hi
    have hlen : s.output.length ≤ i.toNat := by omega
    simp [getSessionOutput, h, jsSlice, jsSliceStart, not_lt.mpr hi0,
      List.drop_eq_nil_of_le hlen]
  · intro hi
    simp [getSessionOutput, h, jsSlice, jsSliceStart, hi]

theorem c7_fromindex_amended_witness :
    (getSessionOutput c7State "sess" (-1)).output =
      some ((sessionOnData (sessionOnData exSession "a" "t1") "b" "t2").output.drop
        ((((sessionOnData (sessionOnData exSession "a" "t1") "b" "t2").output.length : Int) + (-1)).toNat)) :=
  (c7_fromindex_amended c7State "sess" (-1)
    (sessionOnData (sessionOnData exSession "a" "t1") "b" "t2")
    (by decide)).2.2.2 (by decide)

/-- C8: `cleanupSessions` with an id fails with "Session not found" on an
unknown id leaving the state unchanged; fails with "Session is still
running" and removes nothing iff the session is running at call time; and
iff it is not running, succeeds with `cleaned:1`, removing exactly that
record and no other. -/
theorem c8_cleanup_contract (st : ServerState) (id : String) :
    (findSession st.sessions id = none →
      cleanupSessions st (some id) =
        (st, { ok := false, cleaned := none, error := some "Session not found" })) ∧
    (∀ s, findSession st.sessions id = some s → s.isRunning = true →
      cleanupSessions st (some id) =
        (st, { ok := false, cleaned := none,
               error := some "Session is still running" })) ∧
    (∀ s, findSession st.sessions id = some s → s.isRunning = false →
      cleanupSessions st (some id) =
        ({ sessions := deleteSession st.sessions id },
         { ok := true, cleaned := some 1, error := none }) ∧
      findSession (deleteSession st.sessions id) id = none ∧
      (∀ other, ¬ other = id →
        findSession (deleteSession st.sessions id) other =
          findSession st.sessions other)) := by
  refine ⟨?_, ?_, ?_⟩
  · intro h
    simp [cleanupSessions, h]
  · intro s h hr
    simp [cleanupSessions, h, hr]
  · intro s h hr
    refine ⟨by simp [cleanupSessions, h, hr], ?_, ?_⟩
    · rw [findSession_deleteSession, if_pos rfl]
    · intro other hother
      rw [findSession_deleteSession,
        if_neg (fun hh => hother hh.symm)]

theorem c8_cleanup_contract_witness :
    cleanupSessions exStoppedState (some "sess") =
      ({ sessions := deleteSession exStoppedState.sessions "sess" },
       { ok := true, cleaned := some 1, error := none }) :=
  ((c8_cleanup_contract exStoppedState "sess").2.2 exExitedSession
    (by decide) (by decide)).1

/-- C9: the environment handed to `pty.spawn` by `startProcess` is the
server's own environment spread-merged with the caller's entries: a key
present in the caller's `env` takes its caller value (precedence on
collision), and a key absent from it falls back to the inherited server
environment — the caller's `env` never replaces the environment
wholesale. -/
theorem c9_env_merge (procEnv : String → Option String) (p : StartParams)
    (k v : String) :
    (spawnOptions procEnv p).env k = mergedEnv procEnv p.env k ∧
    (p.env k = some v → (spawnOptions procEnv p).env k = some v) ∧
    (p.env k = none → (spawnOptions procEnv p).env k = procEnv k) := by
  refine ⟨rfl, ?_, ?_⟩ <;> intro h <;> simp [spawnOptions, mergedEnv, h]

theorem c9_env_merge_witness :
    (spawnOptions c9ProcEnv c9Params).env "PATH" = some "/opt/bin" :=
  (c9_env_merge c9ProcEnv c9Params "PATH" "/opt/bin").2.1 (by decide)

/-- C10: when `pty.kill()` throws inside `stopProcess`, the handler
returns the error value built from the exception and the whole registry —
in particular the session's registration, `isRunning`, `exitCode` and
`exitSignal` — is exactly what it was before the call. -/
theorem c10_stop_kill_throw (st : ServerState) (id killErr : String)
    (s : Session) (h : findSession st.sessions id = some s) :
    stopProcess st id false killErr =
      (st, { ok := false, killed := none, error := some killErr }) := by
  simp [stopProcess, h]

theorem c10_stop_kill_throw_witness :
    stopProcess exState "sess" false "Error: kill EPERM" =
      (exState, { ok := false, killed := none,
                  error := some "Error: kill EPERM" }) :=
  c10_stop_kill_throw exState "sess" "Error: kill EPERM" exSession (by decide)

/-- C1 (counterexample): `totalLines` is the retained buffer length, not
the cumulative append count.  After registering a session and delivering
10001 stdout chunks, the cumulative count is 10001 but `getSessionOutput`
reports `totalLines = 10000` (one eviction has happened), so a caller
polling with `fromIndex = previous totalLines` re-reads the shifted
events. -/
theorem c1_totallines_counterexample :
    appendCount c1Trace "sess" = 10001 ∧
    (getSessionOutput (applyOps emptyState c1Trace) "sess" 0).totalLines =
      some 10000 ∧
    ¬ (getSessionOutput (applyOps emptyState c1Trace) "sess" 0).totalLines =
      some (appendCount c1Trace "sess") := by
  have hcount : appendCount c1Trace "sess" = 10001 := by
    unfold c1Trace
    rw [appendCount_cons, appendCount_replicate]
    simp [appendsTo, exStart]
  have h0 : findSession (applyOp emptyState exStart).sessions "sess" =
      some exSession := by decide
  have h1 := findSession_applyOps_dataReplicate 10001 (applyOp emptyState exStart)
    "sess" "x" "t1" exSession h0
  have hout : exSession.output = [] := rfl
  rw [hout] at h1
  have hlen : (onDataIter 10001 ([] : List OutputEvent)
      (OutputEvent.stdout "x" "t1")).length = 10000 := by
    have hmin := length_onDataIter 10001 [] (OutputEvent.stdout "x" "t1")
      (by simp [maxBufferSize])
    rw [hmin]
    simp only [List.length_nil, maxBufferSize]
    omega
  have key : ∀ X : List OutputEvent, X.length = 10000 →
      findSession (applyOps (applyOp emptyState exStart)
          (List.replicate 10001 (Op.data "sess" "x" "t1"))).sessions "sess" =
        some { exSession with output := X } →
      (getSessionOutput (applyOps emptyState c1Trace) "sess" 0).totalLines =
        some 10000 := by
    intro X hX hfind
    unfold c1Trace
    rw [applyOps_cons, totalLines_getSessionOutput _ _ _ _ hfind]
    simp [hX]
  have htot := key _ hlen h1
  refine ⟨hcount, htot, ?_⟩
  rw [htot, hcount]
  simp

/-- C1 (amended): `totalLines` reports the number of currently retained
events.  This equals the true cumulative append count for as long as that
count is within `maxBufferSize` — i.e. before any eviction — for every
trace that neither re-registers nor removes the session; beyond that the
two diverge (see the counterexample). -/
theorem c1_totallines_amended (ops : List Op) (uuid : String) (pid : Nat)
    (cwd exe : String) (argv : List String) (cols rows : Nat) (now : String)
    (hben : ∀ op ∈ ops, preservesSession uuid op = true)
    (hcum : appendCount ops uuid ≤ maxBufferSize) :
    (getSessionOutput
        (applyOps (applyOp emptyState (Op.start uuid pid cwd exe argv cols rows now)) ops)
        uuid 0).totalLines = some (appendCount ops uuid) := by
  have hfind : findSession
      (applyOp emptyState (Op.start uuid pid cwd exe argv cols rows now)).sessions uuid =
      some (newSession pid cwd exe argv cols rows now) := by
    simp [applyOp, findSession_setSession]
  obtain ⟨s', h1, _, h3⟩ := retained_le_appendCount ops _ uuid _ hfind hben
  have heq := h3 (by simpa [newSession] using hcum)
  simp [newSession] at heq
  simp [getSessionOutput, h1, heq]

theorem c1_totallines_amended_witness :
    (getSessionOutput
        (applyOps (applyOp emptyState (Op.start "sess" 42 "/tmp" "bash" ["-c", "x"] 120 30 "t0"))
          [Op.data "sess" "hi" "t1", Op.exit "sess" 0 0 "t2"])
        "sess" 0).totalLines =
      some (appendCount [Op.data "sess" "hi" "t1", Op.exit "sess" 0 0 "t2"] "sess") :=
  c1_totallines_amended [Op.data "sess" "hi" "t1", Op.exit "sess" 0 0 "t2"]
    "sess" 42 "/tmp" "bash" ["-c", "x"] 120 30 "t0" (by decide) (by decide)

/-- C4 (counterexample): the capacity bound does not hold after every
append.  With the buffer exactly full (10000 events after 10000 stdout
chunks), the exit-marker append performed by `p.onExit` does no trimming,
leaving the buffer at `maxBufferSize + 1 = 10001` events. -/
theorem c4_capacity_counterexample :
    (findSession (applyOps emptyState c4Trace).sessions "sess").map
        (fun s => s.output.length) = some (maxBufferSize + 1) := by
  unfold c4Trace
  rw [applyOps_cons, applyOps_append]
  have h0 : findSession (applyOp emptyState exStart).sessions "sess" =
      some exSession := by decide
  have h1 := findSession_applyOps_dataReplicate 10000 (applyOp emptyState exStart)
    "sess" "x" "t1" exSession h0
  have hout : exSession.output = [] := rfl
  rw [hout] at h1
  have hlen : (onDataIter 10000 ([] : List OutputEvent)
      (OutputEvent.stdout "x" "t1")).length = 10000 := by
    have hmin := length_onDataIter 10000 [] (OutputEvent.stdout "x" "t1")
      (by simp [maxBufferSize])
    rw [hmin]
    simp only [List.length_nil, maxBufferSize]
    omega
  have hsingle : applyOps
      (applyOps (applyOp emptyState exStart) (List.replicate 10000 (Op.data "sess" "x" "t1")))
      [Op.exit "sess" 0 0 "t2"] =
      applyOp (applyOps (applyOp emptyState exStart)
        (List.replicate 10000 (Op.data "sess" "x" "t1"))) (Op.exit "sess" 0 0 "t2") :=
    applyOps_cons _ _ []
  rw [hsingle]
  have h2 := findSession_applyOp_exit_self
    (applyOps (applyOp emptyState exStart) (List.replicate 10000 (Op.data "sess" "x" "t1")))
    "sess" 0 0 "t2"
  rw [h1] at h2
  have key : ∀ X : List OutputEvent, X.length = 10000 →
      (Option.map (fun s => sessionOnExit s 0 0 "t2")
          (some { exSession with output := X })).map (fun s => s.output.length) =
        some (maxBufferSize + 1) := by
    intro X hX
    simp [sessionOnExit, onExitPush, hX, maxBufferSize]
  rw [h2]
  exact key _ hlen

/-- C4 (amended): every stdout append (`p.onData`) maintains the capacity
bound, evicting exactly the single oldest event (FIFO) when the buffer is
full and appending plainly below capacity; the exit-marker append
(`p.onExit`) never evicts, so it can leave the buffer one event above the
bound. -/
theorem c4_capacity_amended (buf : List OutputEvent) (ev ev' : OutputEvent)
    (h : buf.length ≤ maxBufferSize) :
    (onDataPush buf ev).length ≤ maxBufferSize ∧
    (buf.length = maxBufferSize → onDataPush buf ev = buf.drop 1 ++ [ev]) ∧
    (buf.length < maxBufferSize → onDataPush buf ev = buf ++ [ev]) ∧
    (onExitPush buf ev').length = buf.length + 1 := by
  refine ⟨?_, onDataPush_full buf ev, onDataPush_not_full buf ev,
    length_onExitPush buf ev'⟩
  rw [length_onDataPush]
  split <;> omega

theorem c4_capacity_amended_witness :
    (onDataPush [] (OutputEvent.stdout "x" "t")).length ≤ maxBufferSize :=
  (c4_capacity_amended [] (OutputEvent.stdout "x" "t")
    (OutputEvent.exitMarker 0 0 "t") (by decide)).1

/-- C6: the wait-mode start (modelled from the spec, §4.4): when the child
exits before the deadline the call returns `ok:true` with the exit code,
the exit signal and the full captured output (which is exactly the
registered session's buffer, ending in the exit marker); when the deadline
elapses first, the child is forcibly terminated as `stop` does
(`isRunning=false`), the call returns `ok:false` with a timeout error, and
the session record remains registered with its captured output. -/
theorem c6_startandwait_behavior (st : ServerState) (uuid : String) (pid : Nat)
    (cwd exe : String) (argv : List String) (cols rows : Nat) (now : String)
    (chunks : List (String × String)) (code sig : Int) (tEnd : String)
    (timeoutMs : Nat) :
    let rE := startProcessAndWait st uuid pid cwd exe argv cols rows now chunks
      (ChildBehavior.exits code sig tEnd) timeoutMs
    let rT := startProcessAndWait st uuid pid cwd exe argv cols rows now chunks
      ChildBehavior.runsPastDeadline timeoutMs
    rE.snd.ok = true ∧
    rE.snd.exitCode = some code ∧
    rE.snd.exitSignal = some sig ∧
    rE.snd.output = (findSession rE.fst.sessions uuid).map Session.output ∧
    (findSession rE.fst.sessions uuid).map Session.isRunning = some false ∧
    rT.snd.ok = false ∧
    rT.snd.error = some ("timeout after " ++ toString timeoutMs ++ "ms") ∧
    containsSession rT.fst.sessions uuid = true ∧
    (findSession rT.fst.sessions uuid).map Session.isRunning = some false ∧
    rT.snd.output = (findSession rT.fst.sessions uuid).map Session.output := by
  refine ⟨rfl, rfl, rfl, ?_, ?_, rfl, rfl, ?_, ?_, ?_⟩ <;>
    simp [startProcessAndWait, findSession_setSession, containsSession,
      sessionOnExit]

end McpShell
